import Mathlib

/-!
Verification of the habit-tracker core logic of `apps/habit-tracker/app.js`.

Dates are modelled as integers counting calendar days (every JS `Date` in the
code is normalised to midnight with `setHours(0,0,0,0)` or produced by
`getLocalDate`, so a calendar day is the unit of comparison).  Strings coming
from requests are modelled as `List Char`; SQL rows are modelled as Lean
structures and the tables as lists of rows.
-/

namespace HabitTracker

/-- JS `String.prototype.trim()` on a habit name: strip leading and trailing
whitespace.  (`app.js` uses `habitName.trim()`.) -/
def jsTrim (s : List Char) : List Char :=
  ((s.dropWhile Char.isWhitespace).reverse.dropWhile Char.isWhitespace).reverse

/-- JS `x || null` applied to an optional request field (`reminderTime || null`
in `app.js`): a missing field or an empty string becomes SQL `NULL`. -/
def jsOrNull (x : Option (List Char)) : Option (List Char) :=
  match x with
  | none => none
  | some s => if s.isEmpty then none else some s

/-- A row of the `habits` table (`initDb` in `app.js`): id, owning user,
name, optional reminder time, creation timestamp. -/
structure Habit where
  id : Nat
  userId : Nat
  name : List Char
  reminderTime : Option (List Char)
  createdAt : Nat
deriving Repr, DecidableEq

/-- The database state seen by the habit-tracker routes: the `habits` table
and the `completions` table (a completion row is the pair
`(habit_id, completed_date)`; the SERIAL id column plays no role in the
logic). -/
structure DB where
  habits : List Habit
  completions : List (Nat × Int)
deriving Repr, DecidableEq

/-- Result of a route handler: `redirect` is the success path
(`res.redirect` to the home page), `validationError` is a 400 response with
its message, `unauthorized` is the 403 Unauthorized response. -/
inductive HResult where
  | redirect
  | validationError (msg : List Char)
  | unauthorized
deriving Repr, DecidableEq

/-- The walk of `calculateStreak` in `app.js` (also inlined in the home
route): at index `i` the expected date is `today - i`; a match adds one and
continues, the first mismatch stops the count. -/
def streakWalk (today : Int) : Nat → List Int → Nat
  | _, [] => 0
  | i, d :: rest =>
      if d = today - (i : Int) then streakWalk today (i + 1) rest + 1 else 0

/-- Function `calculateStreak` of the source: the completion dates arrive from SQL with
`ORDER BY completed_date DESC`, then the walk runs over them.  (The early
return on an empty row set coincides with the walk on `[]`.) -/
def calculateStreak (today : Int) (dates : List Int) : Nat :=
  streakWalk today 0 (List.insertionSort (fun a b => a ≥ b) dates)

/-- The per-habit view model built by the home route (`habitsMap` entries):
name, whether today is checked in, and the completion dates of the habit. -/
structure EnrichedHabit where
  id : Nat
  name : List Char
  checkedInToday : Bool
  completions : List Int
deriving Repr, DecidableEq

/-- Field `stats.totalCompletionsThisWeek` of the home route: `weekAgo` is
`today - 7` days and each habit contributes its completions with
`new Date(d) >= weekAgo`. -/
def totalCompletionsThisWeek (today : Int) (hs : List EnrichedHabit) : Nat :=
  hs.foldl
    (fun sum h => sum + (h.completions.filter (fun d => today - 7 ≤ d)).length)
    0

/-- The count `enrichedHabits.filter(h => h.checkedInToday).length` of the home route. -/
def completedToday (hs : List EnrichedHabit) : Nat :=
  (hs.filter (fun h => h.checkedInToday)).length

/-- Field `completionRate` of the home route:
`Math.round((completedToday / totalHabits) * 100)` when there is at least one
habit, `0` otherwise. -/
def completionRate (hs : List EnrichedHabit) : Int :=
  if 0 < hs.length then
    round (((completedToday hs : ℚ) / (hs.length : ℚ)) * 100)
  else 0

/-- The validation shared by the POST /add and POST /edit/:id handlers:
`!habitName || habitName.trim().length === 0` rejects a missing, empty or
whitespace-only name; `habitName.length > 100` rejects on the UNTRIMMED
length.  Returns the validation failure, if any. -/
def nameValidation (habitName : Option (List Char)) : Option HResult :=
  match habitName with
  | none => some (.validationError "Habit name is required".toList)
  | some n =>
      if (jsTrim n).isEmpty then
        some (.validationError "Habit name is required".toList)
      else if n.length > 100 then
        some (.validationError "Habit name too long (max 100 characters)".toList)
      else none

/-- Handler of POST /add: validate the name, then
`INSERT INTO habits (user_id, name, reminder_time)` with the trimmed name and
`reminderTime || null`.  `newId`/`now` stand for the SERIAL id and the
`created_at` default. -/
def addHabit (db : DB) (uid : Nat) (habitName reminderTime : Option (List Char))
    (newId now : Nat) : HResult × DB :=
  match nameValidation habitName, habitName with
  | some e, _ => (e, db)
  | none, none => (.validationError "Habit name is required".toList, db)
  | none, some n =>
      (.redirect,
        { db with habits :=
            db.habits ++ [⟨newId, uid, jsTrim n, jsOrNull reminderTime, now⟩] })

/-- The ownership pre-check of `/checkin/:id` and `/undo/:id`:
`SELECT id FROM habits WHERE id = $1 AND user_id = $2` returned no row. -/
def ownerCheckFails (db : DB) (uid hid : Nat) : Bool :=
  (db.habits.filter (fun h => h.id == hid && h.userId == uid)).isEmpty

/-- The insert `INSERT INTO completions ... ON CONFLICT DO NOTHING`: appending the row
unless the `(habit_id, completed_date)` pair is already present
(`UNIQUE(habit_id, completed_date)`). -/
def insertCompletion (cs : List (Nat × Int)) (hid : Nat) (d : Int) :
    List (Nat × Int) :=
  if (hid, d) ∈ cs then cs else cs ++ [(hid, d)]

/-- Handler of POST /checkin/:id — 403 when the habit does not belong to the
user, otherwise the idempotent insert of `(id, today)`. -/
def checkin (db : DB) (uid hid : Nat) (today : Int) : HResult × DB :=
  if ownerCheckFails db uid hid then (.unauthorized, db)
  else
    (.redirect, { db with completions := insertCompletion db.completions hid today })

/-- Handler of POST /undo/:id — 403 when the habit does not belong to the user,
otherwise `DELETE FROM completions WHERE habit_id = $1 AND completed_date = $2`. -/
def undo (db : DB) (uid hid : Nat) (today : Int) : HResult × DB :=
  if ownerCheckFails db uid hid then (.unauthorized, db)
  else
    (.redirect,
      { db with completions :=
          db.completions.filter (fun c => !(c.1 == hid && c.2 == today)) })

/-- Handler of POST /delete/:id — `DELETE FROM habits WHERE id = $1 AND
user_id = $2`; `rowCount === 0` yields 403, and a deleted habit cascades its
completions (`ON DELETE CASCADE`). -/
def deleteHabit (db : DB) (uid hid : Nat) : HResult × DB :=
  let deleted := db.habits.filter (fun h => h.id == hid && h.userId == uid)
  if deleted.isEmpty then (.unauthorized, db)
  else
    (.redirect,
      { habits := db.habits.filter (fun h => !(h.id == hid && h.userId == uid)),
        completions :=
          db.completions.filter (fun c => !(deleted.any (fun h => h.id == c.1))) })

/-- Handler of POST /edit/:id — the name validation of /add, then
`UPDATE habits SET name = $1, reminder_time = $2 WHERE id = $3 AND
user_id = $4` with the trimmed name and `reminderTime || null`;
`rowCount === 0` yields 403. -/
def editHabit (db : DB) (uid hid : Nat) (habitName reminderTime : Option (List Char)) :
    HResult × DB :=
  match nameValidation habitName, habitName with
  | some e, _ => (e, db)
  | none, none => (.validationError "Habit name is required".toList, db)
  | none, some n =>
      if db.habits.any (fun h => h.id == hid && h.userId == uid) then
        (.redirect,
          { db with habits :=
              db.habits.map (fun h =>
                if h.id == hid && h.userId == uid then
                  { h with name := jsTrim n, reminderTime := jsOrNull reminderTime }
                else h) })
      else (.unauthorized, db)

/-- JS leap-year rule as realised by `Date`: divisible by 4 and not by 100
unless by 400 (proleptic Gregorian). -/
def isLeapYear (y : Int) : Bool :=
  y % 4 == 0 && (y % 100 != 0 || y % 400 == 0)

/-- The JS expression `new Date(yearNum, monthNum, 0).getDate()` for months 1 to 12: day 0
of the following month, i.e. the last day of month `monthNum` of `yearNum` in
the Gregorian calendar. -/
def jsMonthLastDay (y m : Int) : Int :=
  if m == 2 then (if isLeapYear y then 29 else 28)
  else if m == 4 || m == 6 || m == 9 || m == 11 then 30
  else 31

/-- A query-string parameter as `/api/calendar` observes it after
`parseInt`: absent or empty (falsy, caught by `!year || !month`),
non-numeric (`parseInt` gives `NaN`), or a number. -/
inductive QueryParam where
  | missing
  | nan
  | num (n : Int)
deriving Repr, DecidableEq

/-- The validation and window computation of GET /api/calendar:
missing parameters give the 400 required-error; a `NaN` year or month or an
out-of-range month gives the 400 invalid-error; otherwise the
month window runs from day 1 to `new Date(yearNum, monthNum, 0).getDate()`. -/
def calendarWindow (year month : QueryParam) :
    Except (List Char) (Int × Int × Int × Int) :=
  match year, month with
  | .missing, _ => .error "Year and month are required".toList
  | _, .missing => .error "Year and month are required".toList
  | .nan, _ => .error "Invalid year or month".toList
  | _, .nan => .error "Invalid year or month".toList
  | .num y, .num m =>
      if m < 1 || m > 12 then .error "Invalid year or month".toList
      else .ok (y, m, 1, jsMonthLastDay y m)

/-! ### Streak lemmas -/

theorem streakWalk_le_length (today : Int) :
    ∀ (i : Nat) (l : List Int), streakWalk today i l ≤ l.length := by
  intro i l
  induction l generalizing i with
  | nil => simp [streakWalk]
  | cons d rest ih =>
      by_cases hd : d = today - (i : Int)
      · simpa [streakWalk, hd] using ih (i + 1)
      · simp [streakWalk, hd]

theorem streakWalk_head_ne (today : Int) (d : Int) (rest : List Int)
    (hd : d ≠ today) : streakWalk today 0 (d :: rest) = 0 := by
  simp [streakWalk, hd]

/-- C4: if the date of today is absent from the completion set, the walk already
mismatches at index 0 (the most recent completion) and the streak is 0. -/
theorem streak_zero_of_today_absent (today : Int) (dates : List Int)
    (h : today ∉ dates) : calculateStreak today dates = 0 := by
  unfold calculateStreak
  have hmem : today ∉ List.insertionSort (fun a b => a ≥ b) dates := by
    rwa [List.mem_insertionSort]
  cases hl : List.insertionSort (fun a b => a ≥ b) dates with
  | nil => simp [streakWalk]
  | cons d rest =>
      have hd : d ≠ today := by
        intro he
        exact hmem (hl ▸ he ▸ List.mem_cons_self d rest)
      exact streakWalk_head_ne today d rest hd

/-- C4 witness. -/
theorem streak_zero_of_today_absent_witness :
    (10 : Int) ∉ ([9, 8, 3] : List Int) ∧ calculateStreak 10 [9, 8, 3] = 0 :=
  ⟨by decide, streak_zero_of_today_absent 10 [9, 8, 3] (by decide)⟩

/-- C9: the streak is a natural number (hence non-negative), never exceeds
the number of completion dates, and is 0 on the empty completion set. -/
theorem streak_bounds (today : Int) (dates : List Int) :
    0 ≤ calculateStreak today dates ∧
      calculateStreak today dates ≤ dates.length ∧
      calculateStreak today [] = 0 := by
  refine ⟨Nat.zero_le _, ?_, by simp [calculateStreak, streakWalk, List.insertionSort]⟩
  unfold calculateStreak
  calc streakWalk today 0 (List.insertionSort (fun a b => a ≥ b) dates)
      ≤ (List.insertionSort (fun a b => a ≥ b) dates).length :=
        streakWalk_le_length today 0 _
    _ = dates.length := List.length_insertionSort _ _

/-- C5: the streak computation sorts its input descending before walking, so
any permutation of the completion-date list yields the same streak. -/
theorem calculateStreak_perm (today : Int) (l₁ l₂ : List Int)
    (h : l₁.Perm l₂) : calculateStreak today l₁ = calculateStreak today l₂ := by
  unfold calculateStreak
  congr 1
  exact List.eq_of_perm_of_sorted
    ((List.perm_insertionSort _ l₁).trans (h.trans (List.perm_insertionSort _ l₂).symm))
    (List.sorted_insertionSort _ l₁) (List.sorted_insertionSort _ l₂)

/-- C5 witness. -/
theorem calculateStreak_perm_witness :
    ([10, 9, 7] : List Int).Perm [7, 10, 9] ∧
      calculateStreak 10 [10, 9, 7] = calculateStreak 10 [7, 10, 9] :=
  ⟨by decide, calculateStreak_perm 10 [10, 9, 7] [7, 10, 9] (by decide)⟩

/-! ### Weekly completion total -/

/-- Modelled from the words of the spec, for comparison: the inclusive 7-day
trailing window ending today, i.e. dates from `today - 6` through `today`. -/
def specTotalCompletionsThisWeek (today : Int) (hs : List EnrichedHabit) : Nat :=
  (hs.map (fun h =>
    (h.completions.filter (fun d => today - 6 ≤ d ∧ d ≤ today)).length)).sum

theorem foldl_add_eq_sum (f : EnrichedHabit → Nat) :
    ∀ (hs : List EnrichedHabit) (n : Nat),
      hs.foldl (fun sum h => sum + f h) n = n + (hs.map f).sum := by
  intro hs
  induction hs with
  | nil => simp
  | cons h rest ih =>
      intro n
      simp [List.foldl_cons, ih, Nat.add_assoc]

/-- C1 counterexample: with today = 0 and one habit whose single completion
is dated exactly 7 days ago, the code counts it (total 1) while the spec
7-day window (today − 6 … today) does not (total 0). -/
theorem totalCompletionsThisWeek_ne_spec :
    totalCompletionsThisWeek 0 [⟨1, ['w'], false, [-7]⟩] = 1 ∧
      specTotalCompletionsThisWeek 0 [⟨1, ['w'], false, [-7]⟩] = 0 := by
  constructor
  · rfl
  · rfl

/-- C1 amended: the code filters with `new Date(d) >= weekAgo` where
`weekAgo = today - 7`, so when no completion is future-dated the window is
the inclusive 8-day span `today - 7 … today`; a completion dated exactly 7
days before today IS counted. -/
theorem totalCompletionsThisWeek_window (today : Int) (hs : List EnrichedHabit)
    (hpast : ∀ h ∈ hs, ∀ d ∈ h.completions, d ≤ today) :
    totalCompletionsThisWeek today hs =
      (hs.map (fun h =>
        (h.completions.filter (fun d => today - 7 ≤ d ∧ d ≤ today)).length)).sum := by
  unfold totalCompletionsThisWeek
  rw [foldl_add_eq_sum, Nat.zero_add]
  congr 1
  apply List.map_congr_left
  intro h hmem
  congr 1
  apply List.filter_congr
  intro d hd
  have hle : d ≤ today := hpast h hmem d hd
  simp [hle]

/-- C1 witness for the amended statement. -/
theorem totalCompletionsThisWeek_window_witness :
    (∀ h ∈ ([⟨1, ['w'], false, [0, -7, -9]⟩] : List EnrichedHabit),
        ∀ d ∈ h.completions, d ≤ (0 : Int)) ∧
      totalCompletionsThisWeek 0 [⟨1, ['w'], false, [0, -7, -9]⟩] =
        (([⟨1, ['w'], false, [0, -7, -9]⟩] : List EnrichedHabit).map (fun h =>
          (h.completions.filter (fun d => (0 : Int) - 7 ≤ d ∧ d ≤ 0)).length)).sum :=
  ⟨by decide, totalCompletionsThisWeek_window 0 _ (by decide)⟩

/-! ### Completion rate -/

/-- C6: the completion rate is `Math.round((completedToday / totalHabits) *
100)` when there is at least one habit, is 0 for an empty habit list (no
division by zero), and always lies in [0, 100]. -/
theorem completionRate_spec (hs : List EnrichedHabit) :
    (hs.length = 0 → completionRate hs = 0) ∧
      (0 < hs.length →
        completionRate hs =
          round (((completedToday hs : ℚ) / (hs.length : ℚ)) * 100)) ∧
      0 ≤ completionRate hs ∧ completionRate hs ≤ 100 := by
  refine ⟨fun h0 => by simp [completionRate, h0], fun hpos => by simp [completionRate, hpos], ?_, ?_⟩
  all_goals
    unfold completionRate
    by_cases hpos : 0 < hs.length
  case pos =>
    rw [if_pos hpos]
    have hq : (0 : ℚ) ≤ ((completedToday hs : ℚ) / (hs.length : ℚ)) * 100 := by
      positivity
    rw [round_eq]
    have : (0 : ℤ) = ⌊(0 : ℚ) + 1 / 2⌋ := by norm_num
    rw [this]
    exact Int.floor_mono (by linarith)
  case neg => rw [if_neg hpos]
  case pos =>
    rw [if_pos hpos]
    have hct : completedToday hs ≤ hs.length := List.length_filter_le _ _
    have hlen : (0 : ℚ) < (hs.length : ℚ) := by exact_mod_cast hpos
    have hdiv : ((completedToday hs : ℚ) / (hs.length : ℚ)) ≤ 1 := by
      rw [div_le_one hlen]
      exact_mod_cast hct
    have hq : ((completedToday hs : ℚ) / (hs.length : ℚ)) * 100 ≤ 100 := by
      nlinarith
    rw [round_eq]
    have h100 : (100 : ℤ) = ⌊(100 : ℚ) + 1 / 2⌋ := by norm_num [Int.floor_eq_iff]
    rw [h100]
    exact Int.floor_mono (by linarith)
  case neg => rw [if_neg hpos]; norm_num

/-- C6 witness. -/
theorem completionRate_spec_witness :
    completionRate [⟨1, ['w'], true, [0]⟩] = 100 := by
  have h := (completionRate_spec [⟨1, ['w'], true, [0]⟩]).2.1 (by decide)
  rw [h]
  have hc : completedToday [⟨1, ['w'], true, [0]⟩] = 1 := by decide
  rw [hc]
  norm_num [round_eq]

/-! ### Ownership guard -/

theorem nameValidation_ne_redirect (nm : Option (List Char)) (e : HResult)
    (h : nameValidation nm = some e) : e ≠ HResult.redirect := by
  intro hre
  subst hre
  cases nm with
  | none => simp [nameValidation] at h
  | some n =>
      unfold nameValidation at h
      split at h
      · simp at h
      · split at h
        · simp at h
        · simp at h

/-- C2: a mutating request (check-in, undo, delete, edit) for a habit owned
by user A, issued with the identity of a different user B, returns the 403
`Unauthorized` response (for edit, once the name validation that precedes
the ownership check passes) and leaves the database — the habit row and its
completions — unchanged; even an edit rejected by validation leaves the
database unchanged and does not succeed. -/
theorem ownership_guard (db : DB) (A B hid : Nat) (today : Int)
    (name rt : Option (List Char)) (hb : Habit)
    (hmem : hb ∈ db.habits) (hbid : hb.id = hid) (hbA : hb.userId = A)
    (hkey : ∀ h ∈ db.habits, h.id = hid → h.userId = A)
    (hBA : B ≠ A) :
    checkin db B hid today = (.unauthorized, db) ∧
      undo db B hid today = (.unauthorized, db) ∧
      deleteHabit db B hid = (.unauthorized, db) ∧
      (editHabit db B hid name rt).2 = db ∧
      (editHabit db B hid name rt).1 ≠ .redirect ∧
      (nameValidation name = none →
        editHabit db B hid name rt = (.unauthorized, db)) := by
  have hnone : ∀ h ∈ db.habits, ¬((h.id == hid && h.userId == B) = true) := by
    intro h hm hcontra
    simp only [Bool.and_eq_true, beq_iff_eq] at hcontra
    exact hBA (hcontra.2.symm.trans (hkey h hm hcontra.1))
  have hfilter : db.habits.filter (fun h => h.id == hid && h.userId == B) = [] :=
    List.filter_eq_nil_iff.mpr hnone
  have hocf : ownerCheckFails db B hid = true := by
    simp [ownerCheckFails, hfilter]
  have hany : db.habits.any (fun h => h.id == hid && h.userId == B) = false :=
    List.any_eq_false.mpr hnone
  refine ⟨by simp [checkin, hocf], by simp [undo, hocf], ?_, ?_⟩
  · unfold deleteHabit
    simp [hfilter]
  · rcases name with _ | n
    · have hreq : editHabit db B hid none rt =
          (.validationError "Habit name is required".toList, db) := rfl
      rw [hreq]
      refine ⟨rfl, by simp, ?_⟩
      intro hc
      simp [nameValidation] at hc
    · rcases hv : nameValidation (some n) with _ | e
      · have hed : editHabit db B hid (some n) rt = (.unauthorized, db) := by
          unfold editHabit
          rw [hv]
          simp [hany]
        rw [hed]
        exact ⟨rfl, by simp, fun _ => rfl⟩
      · have hed : editHabit db B hid (some n) rt = (e, db) := by
          unfold editHabit
          rw [hv]
        rw [hed]
        refine ⟨rfl, nameValidation_ne_redirect (some n) e hv, ?_⟩
        intro hc
        exact absurd hc (by simp)

/-- C2 witness. -/
theorem ownership_guard_witness :
    checkin ⟨[⟨5, 1, ['w'], none, 0⟩], []⟩ 2 5 0 =
      (.unauthorized, ⟨[⟨5, 1, ['w'], none, 0⟩], []⟩) :=
  (ownership_guard ⟨[⟨5, 1, ['w'], none, 0⟩], []⟩ 1 2 5 0 (some ['x']) none
    ⟨5, 1, ['w'], none, 0⟩ (by decide) rfl rfl (by decide) (by decide)).1

/-! ### Idempotent check-in and undo -/

theorem mem_insertCompletion (cs : List (Nat × Int)) (hid : Nat) (d : Int) :
    (hid, d) ∈ insertCompletion cs hid d := by
  unfold insertCompletion
  split
  · assumption
  · simp

theorem count_one_of_nodup_mem {x : Nat × Int} {cs : List (Nat × Int)}
    (hnodup : cs.Nodup) (hmem : x ∈ cs) : cs.count x = 1 := by
  induction cs with
  | nil => cases hmem
  | cons c rest ih =>
      rcases List.mem_cons.mp hmem with rfl | hm
      · rw [List.count_cons_self,
          List.count_eq_zero_of_not_mem (List.nodup_cons.mp hnodup).1]
      · have hne : x ≠ c := fun he => (List.nodup_cons.mp hnodup).1 (he ▸ hm)
        rw [List.count_cons_of_ne hne]
        exact ih (List.nodup_cons.mp hnodup).2 hm

theorem count_insertCompletion (cs : List (Nat × Int)) (hid : Nat) (d : Int)
    (hnodup : cs.Nodup) : (insertCompletion cs hid d).count (hid, d) = 1 := by
  unfold insertCompletion
  split
  case isTrue hmem => exact count_one_of_nodup_mem hnodup hmem
  case isFalse hmem =>
      rw [List.count_append, List.count_eq_zero_of_not_mem hmem]
      simp

theorem filter_insertCompletion (cs : List (Nat × Int)) (hid : Nat) (d : Int) :
    (insertCompletion cs hid d).filter (fun c => !(c.1 == hid && c.2 == d)) =
      cs.filter (fun c => !(c.1 == hid && c.2 == d)) := by
  unfold insertCompletion
  split
  · rfl
  · simp [List.filter_append]

/-- C3: for a habit the caller owns, the first check-in succeeds, a second
check-in for the same date succeeds as an exact no-op, the resulting state
has exactly one completion row for the (habit, date) pair, and a subsequent
undo removes it entirely, leaving the habits untouched and the completions
equal to the original table with every row for that pair removed. -/
theorem checkin_idempotent_undo (db : DB) (uid hid : Nat) (d : Int)
    (hown : ownerCheckFails db uid hid = false)
    (hnodup : db.completions.Nodup) :
    (checkin db uid hid d).1 = .redirect ∧
      checkin (checkin db uid hid d).2 uid hid d =
        (.redirect, (checkin db uid hid d).2) ∧
      (checkin (checkin db uid hid d).2 uid hid d).2.completions.count (hid, d) = 1 ∧
      undo (checkin (checkin db uid hid d).2 uid hid d).2 uid hid d =
        (.redirect,
          ⟨db.habits, db.completions.filter (fun c => !(c.1 == hid && c.2 == d))⟩) := by
  have hs1 : checkin db uid hid d =
      (.redirect, { db with completions := insertCompletion db.completions hid d }) := by
    unfold checkin
    rw [hown]
    simp
  have hocf1 : ownerCheckFails
      { db with completions := insertCompletion db.completions hid d } uid hid = false :=
    hown
  have hnoop : insertCompletion (insertCompletion db.completions hid d) hid d =
      insertCompletion db.completions hid d := by
    have h := mem_insertCompletion db.completions hid d
    rw [show insertCompletion (insertCompletion db.completions hid d) hid d =
        if (hid, d) ∈ insertCompletion db.completions hid d then
          insertCompletion db.completions hid d
        else insertCompletion db.completions hid d ++ [(hid, d)] from rfl,
      if_pos h]
  have hs2 : checkin (checkin db uid hid d).2 uid hid d =
      (.redirect, (checkin db uid hid d).2) := by
    rw [hs1]
    unfold checkin
    rw [hocf1]
    simp [hnoop]
  refine ⟨by rw [hs1], hs2, ?_, ?_⟩
  · rw [hs2, hs1]
    exact count_insertCompletion db.completions hid d hnodup
  · rw [hs2, hs1]
    unfold undo
    rw [hocf1]
    simp only [Bool.false_eq_true, if_false]
    rw [filter_insertCompletion]

/-- C3 witness. -/
theorem checkin_idempotent_undo_witness :
    (checkin ⟨[⟨5, 1, ['w'], none, 0⟩], []⟩ 1 5 0).1 = .redirect :=
  (checkin_idempotent_undo ⟨[⟨5, 1, ['w'], none, 0⟩], []⟩ 1 5 0
    (by decide) (by decide)).1

/-! ### Edit frame: reminder is overwritten together with the name -/

/-- C10: a successful edit always writes both `name` and `reminder_time`;
when the request carries no reminder time (or an empty one, i.e.
`reminderTime || null` is `NULL`), the stored reminder of the habit becomes
`none` regardless of its previous value, the name becomes the trimmed new
name, every other field of the habit and every other habit row are
unchanged, and the completions are unchanged. -/
theorem edit_overwrites_reminder (db : DB) (uid hid : Nat)
    (n : List Char) (rt : Option (List Char))
    (hval : nameValidation (some n) = none)
    (hown : db.habits.any (fun h => h.id == hid && h.userId == uid) = true)
    (hrt : jsOrNull rt = none) :
    editHabit db uid hid (some n) rt =
      (.redirect,
        { db with habits := db.habits.map (fun h =>
            if h.id == hid && h.userId == uid then
              { h with name := jsTrim n, reminderTime := none }
            else h) }) := by
  unfold editHabit
  rw [hval, hown, hrt]
  simp

/-- C10 witness: the previously stored reminder of the habit is
nulled out by an edit that carries no reminder. -/
theorem edit_overwrites_reminder_witness :
    editHabit ⟨[⟨5, 1, ['w'], some ['0', '8'], 3⟩], [(5, 0)]⟩ 1 5 ['x'] none =
      (.redirect, ⟨[⟨5, 1, ['x'], none, 3⟩], [(5, 0)]⟩) := by
  have h := edit_overwrites_reminder ⟨[⟨5, 1, ['w'], some ['0', '8'], 3⟩], [(5, 0)]⟩
    1 5 ['x'] none (by decide) (by decide) (by decide)
  rw [h]
  decide

/-! ### Calendar validation and month window -/

/-- C7: `/api/calendar` rejects a missing year or month with the required
error, rejects a `NaN` year or month and month 0 or 13 with the invalid
error, and for an in-range month returns the window from day 1 to the last
day of the month, which is 29 for February 2024 (leap year) and 28 for
February 2023. -/
theorem calendar_validation :
    (∀ p : QueryParam, calendarWindow .missing p =
        .error "Year and month are required".toList) ∧
      (∀ p : QueryParam, calendarWindow p .missing =
        .error "Year and month are required".toList) ∧
      (∀ y : Int, calendarWindow (.num y) (.num 0) =
        .error "Invalid year or month".toList) ∧
      (∀ y : Int, calendarWindow (.num y) (.num 13) =
        .error "Invalid year or month".toList) ∧
      (∀ m : Int, calendarWindow .nan (.num m) =
        .error "Invalid year or month".toList) ∧
      (∀ y : Int, calendarWindow (.num y) .nan =
        .error "Invalid year or month".toList) ∧
      (∀ y m : Int, 1 ≤ m → m ≤ 12 →
        calendarWindow (.num y) (.num m) = .ok (y, m, 1, jsMonthLastDay y m)) ∧
      jsMonthLastDay 2024 2 = 29 ∧ jsMonthLastDay 2023 2 = 28 := by
  refine ⟨fun p => by cases p <;> rfl, fun p => by cases p <;> rfl, fun y => rfl,
    fun y => rfl, fun m => rfl, fun y => rfl, ?_, rfl, rfl⟩
  intro y m h1 h12
  have hc : (m < 1 || m > 12) = false := by
    simp only [Bool.or_eq_false_iff, decide_eq_false_iff_not]
    omega
  have hif : calendarWindow (.num y) (.num m) =
      if (m < 1 || m > 12) = true then
        Except.error "Invalid year or month".toList
      else Except.ok (y, m, 1, jsMonthLastDay y m) := rfl
  rw [hif, hc]
  simp

/-- C7 witness. -/
theorem calendar_validation_witness :
    calendarWindow (.num 2024) (.num 2) = .ok (2024, 2, 1, 29) := by
  have h := calendar_validation.2.2.2.2.2.2.1 2024 2 (by norm_num) (by norm_num)
  rw [h]
  rfl

/-! ### Habit name validation -/

theorem jsTrim_length_le (s : List Char) : (jsTrim s).length ≤ s.length := by
  unfold jsTrim
  calc ((s.dropWhile Char.isWhitespace).reverse.dropWhile
          Char.isWhitespace).reverse.length
      = ((s.dropWhile Char.isWhitespace).reverse.dropWhile
          Char.isWhitespace).length := List.length_reverse _
    _ ≤ (s.dropWhile Char.isWhitespace).reverse.length :=
        (List.dropWhile_sublist _).length_le
    _ = (s.dropWhile Char.isWhitespace).length := List.length_reverse _
    _ ≤ s.length := (List.dropWhile_sublist _).length_le

/-- C8 counterexample: the length check runs on the UNTRIMMED name
(`habitName.length > 100`), so the name letter-a followed by 100 spaces —
whose trimmed length is 1, inside the 1–100 range the claim says is
accepted — is rejected by `/add` with the too-long validation error. -/
theorem name_length_counterexample :
    (1 ≤ (jsTrim ('a' :: List.replicate 100 ' ')).length ∧
        (jsTrim ('a' :: List.replicate 100 ' ')).length ≤ 100) ∧
      addHabit ⟨[], []⟩ 1 (some ('a' :: List.replicate 100 ' ')) none 7 0 =
        (.validationError "Habit name too long (max 100 characters)".toList,
          ⟨[], []⟩) := by
  exact ⟨⟨by decide, by decide⟩, rfl⟩

/-- C8 amended: a name that is missing or empty after trimming is rejected;
the too-long rejection tests the UNTRIMMED length, so any name of raw length
over 100 — in particular any name of trimmed length over 100 — is rejected;
a name whose raw length is at most 100 and whose trimmed form is non-empty
is accepted and stored trimmed (for edit, once the habit belongs to the
caller); in each case trimming is the only change applied to the name. -/
theorem habit_name_validation (db : DB) (uid hid : Nat)
    (rt : Option (List Char)) (newId now : Nat) (n : List Char) :
    addHabit db uid none rt newId now =
        (.validationError "Habit name is required".toList, db) ∧
      ((jsTrim n).isEmpty = true →
        addHabit db uid (some n) rt newId now =
          (.validationError "Habit name is required".toList, db)) ∧
      ((jsTrim n).isEmpty = false → 100 < n.length →
        addHabit db uid (some n) rt newId now =
          (.validationError "Habit name too long (max 100 characters)".toList, db)) ∧
      (100 < (jsTrim n).length →
        addHabit db uid (some n) rt newId now =
          (.validationError "Habit name too long (max 100 characters)".toList, db)) ∧
      ((jsTrim n).isEmpty = false → n.length ≤ 100 →
        addHabit db uid (some n) rt newId now =
          (.redirect, { db with habits :=
            db.habits ++ [⟨newId, uid, jsTrim n, jsOrNull rt, now⟩] })) ∧
      ((jsTrim n).isEmpty = true →
        editHabit db uid hid (some n) rt =
          (.validationError "Habit name is required".toList, db)) ∧
      ((jsTrim n).isEmpty = false → 100 < n.length →
        editHabit db uid hid (some n) rt =
          (.validationError "Habit name too long (max 100 characters)".toList, db)) ∧
      ((jsTrim n).isEmpty = false → n.length ≤ 100 →
        db.habits.any (fun h => h.id == hid && h.userId == uid) = true →
        editHabit db uid hid (some n) rt =
          (.redirect, { db with habits := db.habits.map (fun h =>
            if h.id == hid && h.userId == uid then
              { h with name := jsTrim n, reminderTime := jsOrNull rt }
            else h) })) := by
  have hred : nameValidation (some n) =
      if (jsTrim n).isEmpty = true then
        some (.validationError "Habit name is required".toList)
      else if n.length > 100 then
        some (.validationError "Habit name too long (max 100 characters)".toList)
      else none := rfl
  have hvreq : (jsTrim n).isEmpty = true →
      nameValidation (some n) = some (.validationError "Habit name is required".toList) := by
    intro he
    rw [hred, if_pos he]
  have hvlong : (jsTrim n).isEmpty = false → 100 < n.length →
      nameValidation (some n) =
        some (.validationError "Habit name too long (max 100 characters)".toList) := by
    intro he hl
    rw [hred, if_neg (by simp [he]), if_pos (by simpa using hl)]
  have hvok : (jsTrim n).isEmpty = false → n.length ≤ 100 →
      nameValidation (some n) = none := by
    intro he hl
    rw [hred, if_neg (by simp [he]), if_neg (by simpa using Nat.not_lt.mpr hl)]
  refine ⟨rfl, ?_, ?_, ?_, ?_, ?_, ?_, ?_⟩
  · intro he
    unfold addHabit
    rw [hvreq he]
  · intro he hl
    unfold addHabit
    rw [hvlong he hl]
  · intro hl
    have hlen : 100 < n.length := lt_of_lt_of_le hl (jsTrim_length_le n)
    have he : (jsTrim n).isEmpty = false := by
      rcases h : jsTrim n with _ | ⟨c, s⟩
      · rw [h] at hl
        simp at hl
      · rfl
    unfold addHabit
    rw [hvlong he hlen]
  · intro he hl
    unfold addHabit
    rw [hvok he hl]
  · intro he
    unfold editHabit
    rw [hvreq he]
  · intro he hl
    unfold editHabit
    rw [hvlong he hl]
  · intro he hl hown
    unfold editHabit
    rw [hvok he hl]
    simp [hown]

/-- C8 witness for the amended statement. -/
theorem habit_name_validation_witness :
    addHabit ⟨[], []⟩ 1 (some [' ', 'r', 'u', 'n', ' ']) none 7 3 =
      (.redirect, ⟨[⟨7, 1, ['r', 'u', 'n'], none, 3⟩], []⟩) := by
  have h := (habit_name_validation ⟨[], []⟩ 1 0 none 7 3
    [' ', 'r', 'u', 'n', ' ']).2.2.2.2.1 (by decide) (by decide)
  rw [h]
  rfl

end HabitTracker
